import Mathlib

/-!
# Verification of the multi-AI-model execution pipeline and reasoning engine

Shallow embedding of the repository's core control logic:

* `src/src/models/base/BaseModel.ts` — the resilient execution pipeline
  (`execute`, `calculateConfidence`, `validateResponseQuality`,
  `generateCacheKey`, `executeWithResilience`).
* `src/unnamed/part_002` (`QwQReasoning.ts`) — the reasoning path engine
  (`parseReasoningPath`, `extractSteps`, `extractAssumptions`,
  `calculateConfidenceFromText`, `evaluateReasoningPaths`, the three scorers,
  contradiction/fallacy/causal-chain detection, `assessCognitiveComplexity`,
  `generateReasoningPaths`).

JavaScript numbers are modelled with `ℚ` (all arithmetic appearing in the
source is exact decimal arithmetic, faithfully represented by rationals;
the single division, the average step length in `scoreSimplicity`, is noted
at its definition).  JavaScript strings are modelled with `String` /
`List Char`; the handful of regular expressions in the source are embedded
as explicit character scanners whose search order (left-to-right scan,
greedy `\s+`, lazy `(.+?)`, alternatives in written order, `lastIndex`
resumption after each global match) follows the ECMAScript semantics of the
concrete patterns.
-/

namespace MultiAI

/-! ## JavaScript string primitives -/

/-- JS `\s` / `String.prototype.trim` whitespace, restricted to the ASCII
whitespace characters (the Unicode space characters accepted by JS never
occur in the repository's string literals nor in the concrete inputs used
below). -/
def jsWhitespaceChar (c : Char) : Bool :=
  c = ' ' || c = '\t' || c = '\n' || c = '\r' || c = Char.ofNat 11 || c = Char.ofNat 12

/-- The `String.prototype.trim`: strip whitespace from both ends. -/
def jsTrim (s : String) : String :=
  ⟨((s.data.dropWhile jsWhitespaceChar).reverse.dropWhile jsWhitespaceChar).reverse⟩

/-- Substring occurrence on character lists (JS `String.prototype.includes`). -/
def charsContain (pat : List Char) : List Char → Bool
  | [] => pat.isPrefixOf []
  | c :: rest => pat.isPrefixOf (c :: rest) || charsContain pat rest

/-- JS `s.includes(pat)` (case-sensitive substring test). -/
def strContains (s pat : String) : Bool :=
  charsContain pat.data s.data

/-- Replace the first occurrence of `pat` on character lists. -/
def replaceFirstChars (pat : List Char) : List Char → List Char
  | [] => []
  | c :: rest =>
    if pat.isPrefixOf (c :: rest) then (c :: rest).drop pat.length
    else c :: replaceFirstChars pat rest

/-- JS `s.replace(pat, '')` with a plain-string pattern: remove the first
occurrence of `pat`, leaving the string unchanged when absent. -/
def replaceFirst (s pat : String) : String :=
  ⟨replaceFirstChars pat.data s.data⟩

/-- JS `String.prototype.toLowerCase`, ASCII fragment. -/
def lowerStr (s : String) : String :=
  ⟨s.data.map Char.toLower⟩

/-- Case-insensitive substring test (`/i`-flagged regex literals reduce to
this when the pattern is a plain lowercase word). -/
def ciContains (s pat : String) : Bool :=
  strContains (lowerStr s) pat

/-! ## Regex scanners

The source's regular expressions all have the shape
`prefix \s+ (.+?) terminator`, scanned globally.  They are embedded as
explicit scanners: `lazyBody` grows the lazy group one character at a time
until the terminator matches, and `wsBody` tries the greedy `\s+` first,
backtracking to shorter whitespace runs exactly as the ECMAScript engine
does. -/

def isDigitChar (c : Char) : Bool := '0' ≤ c && c ≤ '9'

/-- Does `\d+\.` match at the head of the list? -/
def numDotAt (cs : List Char) : Bool :=
  let ds := cs.takeWhile isDigitChar
  !ds.isEmpty && (cs.drop ds.length).head? = some '.'

/-- The `.` without the `s` flag: any character except a line terminator. -/
def dotNoNL (c : Char) : Bool :=
  !(c = '\n' || c = '\r' || c = Char.ofNat 0x2028 || c = Char.ofNat 0x2029)

/-- Lazy `(.+?)` followed by a terminator: consume at least one `dotOk`
character, stopping at the first point where `term` succeeds; returns the
group's characters and the remainder after the terminator. -/
def lazyBody (dotOk : Char → Bool) (term : List Char → Option (List Char)) :
    List Char → Option (List Char × List Char)
  | [] => none
  | c :: rest =>
    if dotOk c then
      match term rest with
      | some rem => some ([c], rem)
      | none =>
        match lazyBody dotOk term rest with
        | some (b, rem) => some (c :: b, rem)
        | none => none
    else none

/-- The `\s+ (.+?) terminator`: the greedy `\s+` takes the maximal run first and
backtracks to shorter (non-empty) runs only if the rest of the pattern cannot
complete.  Returns (whitespace run, lazy group, remainder after terminator). -/
def wsBody (dotOk : Char → Bool) (term : List Char → Option (List Char))
    (r1 : List Char) : Option (List Char × List Char × List Char) :=
  let m := (r1.takeWhile jsWhitespaceChar).length
  ((List.range m).reverse.map (· + 1)).findSome? fun k =>
    (lazyBody dotOk term (r1.drop k)).map fun p => (r1.take k, p.1, p.2)

/-- Terminator `(?=\d+\.|$)` of the numbered-step pattern (lookahead:
consumes nothing). -/
def numStepTerm (rest : List Char) : Option (List Char) :=
  if rest.isEmpty || numDotAt rest then some rest else none

/-- The `text.match(/\d+\.\s+(.+?)(?=\d+\.|$)/gs)` at one position: the full
match (returned by `match` with the `g` flag) and the remainder. -/
def matchNumberedAt (cs : List Char) : Option (List Char × List Char) :=
  let ds := cs.takeWhile isDigitChar
  if ds.isEmpty then none
  else
    match cs.drop ds.length with
    | '.' :: r1 =>
      match wsBody (fun _ => true) numStepTerm r1 with
      | some (ws, b, rem) => some (ds ++ '.' :: (ws ++ b), rem)
      | none => none
    | _ => none

def isBulletChar (c : Char) : Bool := c = '-' || c = '•'

/-- Terminator `(?=[-•]|$)` of the bullet pattern. -/
def bulletTerm (rest : List Char) : Option (List Char) :=
  match rest with
  | [] => some []
  | d :: _ => if isBulletChar d then some rest else none

/-- The `text.match(/[-•]\s+(.+?)(?=[-•]|$)/gs)` at one position. -/
def matchBulletAt (cs : List Char) : Option (List Char × List Char) :=
  match cs with
  | b :: r1 =>
    if isBulletChar b then
      match wsBody (fun _ => true) bulletTerm r1 with
      | some (ws, body, rem) => some (b :: (ws ++ body), rem)
      | none => none
    else none
  | [] => none

/-- Global scan (`g` flag): try the matcher at each index from left to
right, resuming after the end of each match (`lastIndex`).  All matchers
below consume at least one character on success, so the input length is
sufficient fuel. -/
def scanMatchesFuel (matchAt : List Char → Option (List Char × List Char)) :
    Nat → List Char → List (List Char)
  | 0, _ => []
  | _, [] => []
  | fuel + 1, c :: rest =>
    match matchAt (c :: rest) with
    | some (m, rem) => m :: scanMatchesFuel matchAt fuel rem
    | none => scanMatchesFuel matchAt fuel rest

def scanMatches (matchAt : List Char → Option (List Char × List Char))
    (cs : List Char) : List (List Char) :=
  scanMatchesFuel matchAt cs.length cs

/-- The `s.replace(/^\d+\.\s+/, '')`: strip the anchored numbered prefix, or
return the string unchanged when it does not match. -/
def stripNumPrefix (s : List Char) : List Char :=
  let ds := s.takeWhile isDigitChar
  if ds.isEmpty then s
  else
    match s.drop ds.length with
    | '.' :: r1 =>
      let ws := r1.takeWhile jsWhitespaceChar
      if ws.isEmpty then s else r1.drop ws.length
    | _ => s

/-- The `s.replace(/^[-•]\s+/, '')`. -/
def stripBulletPrefix (s : List Char) : List Char :=
  match s with
  | b :: r1 =>
    if isBulletChar b then
      let ws := r1.takeWhile jsWhitespaceChar
      if ws.isEmpty then s else r1.drop ws.length
    else s
  | [] => []

def isSentencePunct (c : Char) : Bool := c = '.' || c = '!' || c = '?'

/-- The `text.split(/[.!?]+/)`: split on maximal runs of sentence punctuation
(JS split semantics: empty segments are kept at the ends, and adjacent
punctuation characters are merged into one separator by the `+`; only the
last character of a run opens a new segment). -/
def splitPunct : List Char → List (List Char)
  | [] => [[]]
  | c :: rest =>
    let tail := splitPunct rest
    if isSentencePunct c then
      match rest with
      | d :: _ => if isSentencePunct d then tail else [] :: tail
      | [] => [] :: tail
    else
      match tail with
      | seg :: segs => (c :: seg) :: segs
      | [] => [[c]]

/-- Consume a literal case-insensitively (`/i` flag); the stored literals
are lowercase.  Returns the remainder on success. -/
def litAtCI (lit : List Char) (cs : List Char) : Option (List Char) :=
  match lit, cs with
  | [], rest => some rest
  | l :: ls, c :: rest => if c.toLower = l then litAtCI ls rest else none
  | _ :: _, [] => none

/-- The `\s+` before a literal: the run is greedy and, being followed by a
non-whitespace literal, never needs backtracking. -/
def wsPlus (cs : List Char) : Option (List Char) :=
  let w := cs.takeWhile jsWhitespaceChar
  if w.isEmpty then none else some (cs.drop w.length)

/-- Terminator `(?:\.|,|;|$)` (a consumed group; the `$` alternative applies
only at the end of the input since no `m` flag is present). -/
def punctTerm (rest : List Char) : Option (List Char) :=
  match rest with
  | c :: r => if c = '.' || c = ',' || c = ';' then some r else none
  | [] => some []

/-- One position of `/assum(?:e|ing|ption)\s+(.+?)(?:\.|,|;|$)/gi`
(the three suffix alternatives start with distinct letters, so the written
order needs no backtracking).  Returns (capture, remainder). -/
def matchAssumAt (cs : List Char) : Option (List Char × List Char) :=
  match litAtCI "assum".data cs with
  | none => none
  | some r0 =>
    match (litAtCI "e".data r0 <|> litAtCI "ing".data r0 <|> litAtCI "ption".data r0) with
    | none => none
    | some r1 =>
      match wsBody dotNoNL punctTerm r1 with
      | some (_, b, rem) => some (b, rem)
      | none => none

/-- One position of `/given\s+that\s+(.+?)(?:\.|,|;|$)/gi`. -/
def matchGivenThatAt (cs : List Char) : Option (List Char × List Char) :=
  match litAtCI "given".data cs with
  | none => none
  | some r0 =>
    match wsPlus r0 with
    | none => none
    | some r1 =>
      match litAtCI "that".data r1 with
      | none => none
      | some r2 =>
        match wsBody dotNoNL punctTerm r2 with
        | some (_, b, rem) => some (b, rem)
        | none => none

/-- Terminator `\s+then` of the if/then pattern (consumed; the greedy run is
followed by the non-whitespace literal `then`, so no backtracking arises). -/
def thenTerm (rest : List Char) : Option (List Char) :=
  let w := rest.takeWhile jsWhitespaceChar
  if w.isEmpty then none else litAtCI "then".data (rest.drop w.length)

/-- One position of `/if\s+(.+?)\s+then/gi`. -/
def matchIfThenAt (cs : List Char) : Option (List Char × List Char) :=
  match litAtCI "if".data cs with
  | none => none
  | some r0 =>
    match wsBody dotNoNL thenTerm r0 with
    | some (_, b, rem) => some (b, rem)
    | none => none

/-- Global capture scan (`matchAll`): like `scanMatches` but collecting the
first capture group of each match. -/
def scanCapturesFuel (matchAt : List Char → Option (List Char × List Char)) :
    Nat → List Char → List (List Char)
  | 0, _ => []
  | _, [] => []
  | fuel + 1, c :: rest =>
    match matchAt (c :: rest) with
    | some (cap, rem) => cap :: scanCapturesFuel matchAt fuel rem
    | none => scanCapturesFuel matchAt fuel rest

def scanCaptures (matchAt : List Char → Option (List Char × List Char))
    (cs : List Char) : List (List Char) :=
  scanCapturesFuel matchAt cs.length cs

/-! ## Reasoning path engine (`QwQReasoning`, src/unnamed/part_002) -/

/-- The `ReasoningPath`: ordered steps, confidence, assumptions
(part_002 lines 280–284). -/
structure ReasoningPath where
  steps : List String
  confidence : ℚ
  assumptions : List String
deriving DecidableEq

/-- Raw inference output consumed by `parseReasoningPath`: the source reads
`response.text || response.response || ''` and `response.confidence || …`,
so each field may be absent. -/
structure RawResponse where
  text : Option String
  response : Option String
  confidence : Option ℚ
deriving DecidableEq

/-- JS `a.text || a.response || ''` (empty strings are falsy). -/
def firstTruthyText (a b : Option String) : String :=
  match a with
  | some s => if s ≠ "" then s else
      match b with
      | some t => if t ≠ "" then t else ""
      | none => ""
  | none =>
      match b with
      | some t => if t ≠ "" then t else ""
      | none => ""

/-- The `QwQReasoning.extractSteps` (part_002 lines 287–305): numbered steps,
then bullet steps, then sentence segmentation keeping segments whose
trimmed length exceeds 10 (the untrimmed segment is kept). -/
def extractSteps (text : String) : List String :=
  let numbered := scanMatches matchNumberedAt text.data
  if !numbered.isEmpty then
    numbered.map fun m => jsTrim ⟨stripNumPrefix m⟩
  else
    let bullets := scanMatches matchBulletAt text.data
    if !bullets.isEmpty then
      bullets.map fun m => jsTrim ⟨stripBulletPrefix m⟩
    else
      ((splitPunct text.data).map fun l => (⟨l⟩ : String)).filter
        fun s => 10 < (jsTrim s).length

/-- The `QwQReasoning.extractAssumptions` (part_002 lines 307–327): the three
cue patterns are scanned over the whole text in order and the trimmed
captures concatenated. -/
def extractAssumptions (text : String) : List String :=
  let run := fun m => (scanCaptures m text.data).map fun c => jsTrim ⟨c⟩
  run matchAssumAt ++ run matchGivenThatAt ++ run matchIfThenAt

/-- The `QwQReasoning.calculateConfidenceFromText` (part_002 lines 329–344). -/
def calculateConfidenceFromText (text : String) : ℚ :=
  let c0 : ℚ := 0.5
  let c1 := if strContains text "certainly" || strContains text "definitely" then c0 + 0.2 else c0
  let c2 := if strContains text "clear" || strContains text "obvious" then c1 + 0.1 else c1
  let c3 := if strContains text "proven" || strContains text "verified" then c2 + 0.15 else c2
  let c4 := if strContains text "maybe" || strContains text "perhaps" then c3 - 0.1 else c3
  let c5 := if strContains text "unclear" || strContains text "uncertain" then c4 - 0.15 else c4
  let c6 := if strContains text "assumption" || strContains text "guess" then c5 - 0.1 else c5
  max 0.1 (min 1.0 c6)

/-- The `QwQReasoning.parseReasoningPath` (part_002 lines 273–285).  Note that
it cannot fail: an output from which no step can be extracted yields a path
with an empty `steps` list, and a zero or absent confidence falls back to
the lexical heuristic (`||` treats 0 as falsy). -/
def parseReasoningPath (r : RawResponse) : ReasoningPath :=
  let text := firstTruthyText r.text r.response
  let steps := extractSteps text
  let assumptions := extractAssumptions text
  let confidence :=
    match r.confidence with
    | some c => if c ≠ 0 then c else calculateConfidenceFromText text
    | none => calculateConfidenceFromText text
  ⟨steps, confidence, assumptions⟩

/-- The `QwQReasoning.stepsContradict` (part_002 lines 481–496): for each
negation word, remove its first occurrence from the step containing it and
test whether the other step contains the trimmed remainder. -/
def negationWords : List String :=
  ["not", "never", "no", "cannot", "don\x27t", "doesn\x27t", "won\x27t"]

def stepsContradict (step1 step2 : String) : Bool :=
  negationWords.any fun n =>
    (strContains step1 n && strContains step2 (jsTrim (replaceFirst step1 n))) ||
    (strContains step2 n && strContains step1 (jsTrim (replaceFirst step2 n)))

/-- The `QwQReasoning.detectContradictions` (part_002 lines 469–479): any
unordered pair of steps contradicting. -/
def detectContradictions : List String → Bool
  | [] => false
  | s :: rest => rest.any (fun t => stepsContradict s t) || detectContradictions rest

/-- The five fallacy patterns of `QwQReasoning.detectFallacies`
(part_002 lines 498–519), in object-literal order. -/
def fallacyAdHominem (s : String) : Bool :=
  ciContains s "attacking" || ciContains s "personal" || ciContains s "character"

def fallacyStrawMan (s : String) : Bool :=
  ciContains s "misrepresent" || ciContains s "distort"

/-- The `only\s+two\s+options` (first alternative of the false-dilemma
pattern). -/
def onlyTwoOptionsAt (cs : List Char) : Bool :=
  (do
    let r0 ← litAtCI "only".data cs
    let r1 ← wsPlus r0
    let r2 ← litAtCI "two".data r1
    let r3 ← wsPlus r2
    litAtCI "options".data r3).isSome

/-- The `or\s+nothing` tail of the second false-dilemma alternative. -/
def orNothingAt (cs : List Char) : Bool :=
  (do
    let r0 ← litAtCI "or".data cs
    let r1 ← wsPlus r0
    litAtCI "nothing".data r1).isSome

/-- Does the predicate hold at some suffix of the list (regex search)? -/
def existsAt (p : List Char → Bool) : List Char → Bool
  | [] => p []
  | c :: rest => p (c :: rest) || existsAt p rest

/-- The `.*` gap (no `s` flag: the gap may not cross a line terminator)
followed by a position where `p` holds. -/
def gapThen (p : List Char → Bool) : List Char → Bool
  | [] => p []
  | c :: rest => p (c :: rest) || (dotNoNL c && gapThen p rest)

/-- The `/only\s+two\s+options|either.*or\s+nothing/i.test(step)`. -/
def fallacyFalseDilemma (s : String) : Bool :=
  existsAt onlyTwoOptionsAt s.data ||
    existsAt (fun cs =>
      match litAtCI "either".data cs with
      | some r => gapThen orNothingAt r
      | none => false) s.data

/-- The `/because.*therefore.*because/i.test(step)`. -/
def fallacyCircular (s : String) : Bool :=
  existsAt (fun cs =>
    match litAtCI "because".data cs with
    | some r =>
      gapThen (fun cs2 =>
        match litAtCI "therefore".data cs2 with
        | some r2 => gapThen (fun cs3 => (litAtCI "because".data cs3).isSome) r2
        | none => false) r
    | none => false) s.data

/-- The `/all|every|never|always/i.test(step)`. -/
def fallacyHasty (s : String) : Bool :=
  ciContains s "all" || ciContains s "every" || ciContains s "never" || ciContains s "always"

def fallaciesOfStep (s : String) : List String :=
  (if fallacyAdHominem s then ["ad_hominem"] else []) ++
  (if fallacyStrawMan s then ["straw_man"] else []) ++
  (if fallacyFalseDilemma s then ["false_dilemma"] else []) ++
  (if fallacyCircular s then ["circular"] else []) ++
  (if fallacyHasty s then ["hasty_generalization"] else [])

def detectFallacies : List String → List String
  | [] => []
  | s :: rest => fallaciesOfStep s ++ detectFallacies rest

/-- The `QwQReasoning.validateCausalChain` (part_002 lines 521–536). -/
def causalWords : List String :=
  ["because", "therefore", "thus", "hence", "so", "consequently"]

def validateCausalChain (steps : List String) : Bool :=
  steps.any fun step => causalWords.any fun w => strContains (lowerStr step) w

/-- The `QwQReasoning.scoreLogicalConsistency` (part_002 lines 415–432). -/
def scoreLogicalConsistency (path : ReasoningPath) : ℚ :=
  let s : ℚ := 1.0
  let s := if detectContradictions path.steps then s - 0.3 else s
  let s := s - ((detectFallacies path.steps).length : ℚ) * 0.1
  let s := if validateCausalChain path.steps then s else s - 0.2
  max 0 s

/-- The `QwQReasoning.scoreCompleteness` (part_002 lines 434–446).  All the
`includes` checks are case-sensitive, exactly as in the source. -/
def scoreCompleteness (path : ReasoningPath) : ℚ :=
  let s : ℚ := 0
  let s := if 3 ≤ path.steps.length then s + 0.3 else s
  let s := if 5 ≤ path.steps.length then s + 0.2 else s
  let s := if 0 < path.assumptions.length then s + 0.2 else s
  let s := if path.steps.any (fun st => strContains st "therefore" || strContains st "thus")
           then s + 0.15 else s
  let s := if path.steps.any (fun st => strContains st "because" || strContains st "since")
           then s + 0.15 else s
  min 1.0 s

/-- The `QwQReasoning.scoreSimplicity` (part_002 lines 448–467).  For an empty
step list the source's average is `0/0 = NaN` and `NaN > 200` is false; the
rational convention `0/0 = 0` takes the same branch. -/
def scoreSimplicity (path : ReasoningPath) : ℚ :=
  let s : ℚ := 1.0
  let s := if 10 < path.steps.length then s - 0.2 else s
  let s := if 15 < path.steps.length then s - 0.3 else s
  let avgLength : ℚ :=
    (path.steps.map fun st => (st.length : ℚ)).sum / (path.steps.length : ℚ)
  let s := if 200 < avgLength then s - 0.2 else s
  let s := if path.steps.any
             (fun st => strContains st "first" || strContains st "second" ||
                        strContains st "finally")
           then s + 0.1 else s
  max 0 (min 1.0 s)

/-- The weighted sum computed inside `evaluateReasoningPaths`
(part_002 lines 398–409). -/
def pathScore (p : ReasoningPath) : ℚ :=
  scoreLogicalConsistency p * 0.4 + scoreCompleteness p * 0.3 +
    scoreSimplicity p * 0.2 + p.confidence * 0.1

/-- The `{ path, score }` records built by `evaluateReasoningPaths`. -/
structure ScoredPath where
  path : ReasoningPath
  score : ℚ
deriving DecidableEq

/-- The `scores.sort((a, b) => b.score - a.score)`: ECMAScript `sort` is stable,
so equal-score records keep their generation order; modelled by a stable
insertion sort into descending score order. -/
def insertByScoreDesc (x : ScoredPath) : List ScoredPath → List ScoredPath
  | [] => [x]
  | y :: ys => if y.score ≤ x.score then x :: y :: ys else y :: insertByScoreDesc x ys

def sortByScoreDesc : List ScoredPath → List ScoredPath
  | [] => []
  | x :: xs => insertByScoreDesc x (sortByScoreDesc xs)

/-- The `QwQReasoning.evaluateReasoningPaths` (part_002 lines 396–413): score
every path, sort descending, return the first.  On an empty list the
source's `[0].path` faults (`undefined.path`), modelled as `none`. -/
def evaluateReasoningPaths (paths : List ReasoningPath) : Option ReasoningPath :=
  let scores := paths.map fun p => ScoredPath.mk p (pathScore p)
  (sortByScoreDesc scores).head?.map ScoredPath.path

/-- The `Problem` (statement plus extracted constraints; the opaque `context`
field is read by no embedded function and is omitted). -/
structure Problem where
  statement : String
  constraints : List String
deriving DecidableEq

/-- The `QwQReasoning.assessCognitiveComplexity` (part_002 lines 547–558). -/
def assessCognitiveComplexity (p : Problem) : ℚ :=
  let c : ℚ := 0.5
  let c := if 200 < p.statement.length then c + 0.1 else c
  let c := if 3 < p.constraints.length then c + 0.15 else c
  let c := if strContains p.statement "multi" || strContains p.statement "complex"
           then c + 0.1 else c
  let c := if 5 < (p.statement.splitOn ",").length then c + 0.1 else c
  min 1.0 c

/-- The `QwQReasoning.generateReasoningPaths` (part_002 lines 115–128): the four
strategy prompts (analytical, creative, systematic, first-principles) are
submitted concurrently and joined with `Promise.all`, which rejects as soon
as any single invocation rejects.  The inference backend is the external
collaborator of spec §6, modelled as an oracle from strategy index to
outcome (`none` = rejected invocation); prompt construction is pure string
templating and does not affect the fan-out/fan-in control flow. -/
def generateReasoningPaths (invoke : Fin 4 → Option RawResponse) :
    Option (List ReasoningPath) :=
  match invoke 0, invoke 1, invoke 2, invoke 3 with
  | some a, some b, some c, some d => some ([a, b, c, d].map parseReasoningPath)
  | _, _, _, _ => none

/-! ### IEEE binary64 semantics of the path scoring

The source runs on JavaScript numbers (IEEE binary64).  The exact-rational
scorers above are the decimal reading used where the conclusions do not
depend on the rounding of individual operations; the selection order of
`evaluateReasoningPaths`, however, compares the *computed doubles*, where
exact-decimal ties need not be ties and vice versa.  The following is the
bit-accurate binary64 semantics of the same source lines: every literal,
product, sum and difference is rounded to the nearest binary64 value
(ties to even).  All quantities stay far inside the normal range, so
overflow and subnormals never arise. -/

/-- Round a rational to the nearest integer, ties to even. -/
def roundNearestEven (m : ℚ) : ℤ :=
  let f := ⌊m⌋
  if m - f < 1/2 then f
  else if 1/2 < m - f then f + 1
  else if f % 2 = 0 then f else f + 1

/-- Round a rational to the nearest IEEE binary64 value (normal range:
53 significant bits, round-to-nearest, ties to even). -/
def fl (x : ℚ) : ℚ :=
  if x = 0 then 0
  else if 0 < x then
    ((roundNearestEven (x * 2 ^ (52 - Int.log 2 x)) : ℚ)) * 2 ^ (Int.log 2 x - 52)
  else
    -(((roundNearestEven ((-x) * 2 ^ (52 - Int.log 2 (-x))) : ℚ)) *
        2 ^ (Int.log 2 (-x) - 52))

/-- Binary64 addition, subtraction, multiplication, division: the exact
result rounded once. -/
def flAdd (a b : ℚ) : ℚ := fl (a + b)

def flSub (a b : ℚ) : ℚ := fl (a - b)

def flMul (a b : ℚ) : ℚ := fl (a * b)

def flDiv (a b : ℚ) : ℚ := fl (a / b)

/-- The `QwQReasoning.scoreLogicalConsistency` (part_002 lines 415–432) in
binary64: each decimal literal denotes its nearest double and each
arithmetic step rounds (`1.0` and `0` are exact; `Math.max` compares
exactly). -/
def scoreLogicalConsistencyFP (path : ReasoningPath) : ℚ :=
  let s : ℚ := 1
  let s := if detectContradictions path.steps then flSub s (fl 0.3) else s
  let s := flSub s (flMul ((detectFallacies path.steps).length : ℚ) (fl 0.1))
  let s := if validateCausalChain path.steps then s else flSub s (fl 0.2)
  max 0 s

/-- The `QwQReasoning.scoreCompleteness` (part_002 lines 434–446) in
binary64. -/
def scoreCompletenessFP (path : ReasoningPath) : ℚ :=
  let s : ℚ := 0
  let s := if 3 ≤ path.steps.length then flAdd s (fl 0.3) else s
  let s := if 5 ≤ path.steps.length then flAdd s (fl 0.2) else s
  let s := if 0 < path.assumptions.length then flAdd s (fl 0.2) else s
  let s := if path.steps.any (fun st => strContains st "therefore" || strContains st "thus")
           then flAdd s (fl 0.15) else s
  let s := if path.steps.any (fun st => strContains st "because" || strContains st "since")
           then flAdd s (fl 0.15) else s
  min 1 s

/-- The `QwQReasoning.scoreSimplicity` (part_002 lines 448–467) in binary64.
The length sum is a sum of small integers, hence exact in doubles; for an
empty step list the source's `0/0` is NaN and `NaN > 200` is false, matched
by the rational convention `0/0 = 0`. -/
def scoreSimplicityFP (path : ReasoningPath) : ℚ :=
  let s : ℚ := 1
  let s := if 10 < path.steps.length then flSub s (fl 0.2) else s
  let s := if 15 < path.steps.length then flSub s (fl 0.3) else s
  let avgLength : ℚ :=
    flDiv (path.steps.map fun st => (st.length : ℚ)).sum (path.steps.length : ℚ)
  let s := if 200 < avgLength then flSub s (fl 0.2) else s
  let s := if path.steps.any
             (fun st => strContains st "first" || strContains st "second" ||
                        strContains st "finally")
           then flAdd s (fl 0.1) else s
  max 0 (min 1 s)

/-- The weighted sum of part_002 lines 406–407 in binary64, with the
source's left-to-right association
`((L*0.4 + C*0.3) + S*0.2) + conf*0.1`. -/
def pathScoreFP (p : ReasoningPath) : ℚ :=
  flAdd
    (flAdd
      (flAdd (flMul (scoreLogicalConsistencyFP p) (fl 0.4))
             (flMul (scoreCompletenessFP p) (fl 0.3)))
      (flMul (scoreSimplicityFP p) (fl 0.2)))
    (flMul p.confidence (fl 0.1))

/-- The `QwQReasoning.evaluateReasoningPaths` (part_002 lines 396–413) with
the scores computed in binary64.  The comparator `b.score - a.score` is used
by ECMAScript `sort` only through its sign, and binary64 subtraction of two
distinct doubles in the normal range is never rounded to zero, so ordering
the stored double scores exactly is faithful; equal doubles keep generation
order (stable sort). -/
def evaluateReasoningPathsFP (paths : List ReasoningPath) : Option ReasoningPath :=
  (sortByScoreDesc (paths.map fun p => ScoredPath.mk p (pathScoreFP p))).head?.map
    ScoredPath.path

/-! ## Resilient execution pipeline (`BaseModel`, src/src/models/base/BaseModel.ts)

`BaseModel.execute` composes caching, optimization, the circuit breaker /
retry stack, response enrichment and metrics.  The classes `CircuitBreaker`,
`ExponentialBackoffRetry`, `ModelMetrics`, `PerformanceOptimizer` and the
methods `shouldUseCache`, `updateCache`, `enrichMetadata`, `handleError` are
referenced by BaseModel.ts but defined nowhere under src/; they are modelled
from the spec (§4.1–§4.4, §7) where noted below. -/

/-- The `ModelConfig` fields read by `calculateConfidence`.  `optimalLatency`
is optional because several concrete configs (e.g. `QwQReasoning`'s) do not
set it; a JS comparison against `undefined` is false. -/
structure ModelConfig where
  optimalLatency : Option ℚ
  maxTokens : ℚ
deriving DecidableEq

/-- Response metadata, reduced to the error indicator the spec requires on
a degraded Response (§4.4 step 6); the remaining free-form fields are
irrelevant to the claims. -/
structure MetaData where
  error : Bool
deriving DecidableEq

/-- The `ModelResponse` fields read by the pipeline.  `processingTime` and
`tokenCount` are read by `calculateConfidence` but are absent from the
`ModelResponse` interface (src/unnamed/part_000), so adapters may not set
them; they are optional, and a JS comparison against `undefined` is false. -/
structure ModelResponse where
  text : String
  confidence : ℚ
  metadata : MetaData
  modelId : String
  timestamp : Nat
  processingTime : Option ℚ
  tokenCount : Option ℚ
deriving DecidableEq

/-- The `ModelInput`: the text payload plus the streaming flag that decides
cacheability. -/
structure ModelInput where
  text : String
  stream : Bool
deriving DecidableEq

/-- The `CachedResponse` (src/unnamed/part_000): a response plus the timestamp
it was stored. -/
structure CachedResponse where
  response : ModelResponse
  timestamp : Nat
deriving DecidableEq

/-- Circuit-breaker states (spec §4.2). -/
inductive CircuitState
  | closed
  | opened
  | halfOpen
deriving DecidableEq

/-- Modelled from the spec: the `CircuitBreaker` class is constructed at
BaseModel.ts:56 but defined nowhere under src/.  Spec §3/§4.2: one state
machine per model identity — a sliding failure counter with a window, a
cooldown timestamp, and the three states. -/
structure BreakerState where
  circuit : CircuitState
  failures : Nat
  lastFailureAt : Nat
  openedAt : Nat
deriving DecidableEq

/-- Modelled from the spec: breaker threshold, failure window and cooldown
are "configured" values (§4.2). -/
structure BreakerConfig where
  threshold : Nat
  windowMs : Nat
  cooldownMs : Nat
deriving DecidableEq

/-- Mutable state owned by one model instance: the cache `Map`, the
identity of the next cache key (see `generateCacheKey`), the breaker state
for this model identity, the metrics summary, and an observation counter of
how many times the adapter's core operation (`processInternal`) has been
invoked. -/
structure ModelState where
  cache : List (Nat × CachedResponse)
  nextKey : Nat
  breaker : BreakerState
  recentSuccessRate : ℚ
  attemptsMade : Nat
deriving DecidableEq

/-- The `BaseModel.generateCacheKey` (BaseModel.ts:98–102).  The body returns
`crypto.subtle.digest(…).then(…)` — a `Promise`, not the declared `string`
— and `execute` (line 22) does not `await` it.  Used as a `Map` key a
Promise compares by object identity, and a fresh Promise is allocated on
every call; modelled by drawing a fresh `Nat` from a counter, so a key
produced by one call is never equal to a key produced by another. -/
def generateCacheKey (st : ModelState) : Nat × ModelState :=
  (st.nextKey, { st with nextKey := st.nextKey + 1 })

/-- Modelled from the spec: `shouldUseCache` is called at BaseModel.ts:25
but defined nowhere under src/.  Spec §4.1: "Caching is skippable per
request (e.g., streaming or explicitly uncacheable operations bypass lookup
and store)". -/
def shouldUseCache (input : ModelInput) : Bool :=
  !input.stream

/-- Modelled from the spec: `updateCache` is called at BaseModel.ts:41 but
defined nowhere under src/.  Spec §4.1: "store overwrites any prior entry
for the same fingerprint with a fresh timestamp". -/
def updateCache (key : Nat) (r : ModelResponse) (now : Nat) (st : ModelState) :
    ModelState :=
  { st with cache := (key, ⟨r, now⟩) :: st.cache.filter fun p => p.1 ≠ key }

/-- Modelled from the spec: `ExponentialBackoffRetry` is constructed at
BaseModel.ts:57 as `new ExponentialBackoffRetry(3, 100)` but defined
nowhere under src/.  Spec §4.3: up to `maxAttempts` tries, stopping at the
first success, the final failure surfaced; the exponential delays are
passive waits with no effect on the outcome and are not modelled.  The
backend oracle maps the global attempt index to the outcome of one
`processInternal` invocation (`none` = invocation error); the pair returned
is (result, new attempt count). -/
def retryExecute (backend : Nat → Option ModelResponse) :
    Nat → Nat → Option ModelResponse × Nat
  | made, 0 => (none, made)
  | made, remaining + 1 =>
    match backend made with
    | some r => (some r, made + 1)
    | none => retryExecute backend (made + 1) remaining

/-- The `new ExponentialBackoffRetry(3, 100)` (BaseModel.ts:57). -/
def retryMaxAttempts : Nat := 3

/-- Failures surfaced by the resilience stage (spec §7): the breaker's
fail-fast error and exhausted retries. -/
inductive ResilienceError
  | breakerOpen
  | retriesExhausted
deriving DecidableEq

/-- Modelled from the spec: `BaseModel.executeWithResilience`
(BaseModel.ts:55–64) wraps the retried `processInternal` in
`CircuitBreaker.execute`, whose semantics (§4.2) are: an Open breaker whose
cooldown has expired admits one trial (HalfOpen); an Open breaker fails
fast with no invocation; otherwise the operation runs — the breaker sees
the aggregate of all retry attempts as one call (§4.4 step 3) — a success
closes the breaker and resets the failure counter (failures are
"consecutive", §8), and a failure increments the windowed counter, tripping
to Open when the threshold is crossed or the HalfOpen trial fails. -/
def executeWithResilience (bcfg : BreakerConfig)
    (backend : Nat → Option ModelResponse) (now : Nat) (st : ModelState) :
    Except ResilienceError ModelResponse × ModelState :=
  let b := st.breaker
  let eff : CircuitState :=
    if b.circuit = CircuitState.opened ∧ b.openedAt + bcfg.cooldownMs ≤ now then
      CircuitState.halfOpen
    else b.circuit
  if eff = CircuitState.opened then
    (Except.error ResilienceError.breakerOpen, st)
  else
    match retryExecute backend st.attemptsMade retryMaxAttempts with
    | (some r, made) =>
      (Except.ok r,
        { st with attemptsMade := made,
                  breaker := { circuit := CircuitState.closed, failures := 0,
                               lastFailureAt := b.lastFailureAt,
                               openedAt := b.openedAt } })
    | (none, made) =>
      let f := if now ≤ b.lastFailureAt + bcfg.windowMs then b.failures + 1 else 1
      let tripped := eff = CircuitState.halfOpen ∨ bcfg.threshold ≤ f
      (Except.error ResilienceError.retriesExhausted,
        { st with attemptsMade := made,
                  breaker :=
                    if tripped then
                      { circuit := CircuitState.opened, failures := f,
                        lastFailureAt := now, openedAt := now }
                    else
                      { circuit := CircuitState.closed, failures := f,
                        lastFailureAt := now, openedAt := b.openedAt } })

/-- The `BaseModel.validateResponseQuality` (BaseModel.ts:87–96): the fraction
of the four boolean checks passed. -/
def validateResponseQuality (text : String) : ℚ :=
  let checks : List Bool :=
    [decide (10 < text.length),
     !strContains text "error",
     decide (3 < (text.splitOn " ").length),
     match (jsTrim text).data.reverse with
     | [] => false
     | c :: _ => c = '.' || c = '!' || c = '?']
  ((checks.filter id).length : ℚ) / (checks.length : ℚ)

/-- First factor of `calculateConfidence`:
`response.processingTime < this.config.optimalLatency ? 0.2 : 0`; either
side may be `undefined` (see `ModelResponse`), making the comparison
false. -/
def latencyFactor (cfg : ModelConfig) (r : ModelResponse) : ℚ :=
  match r.processingTime, cfg.optimalLatency with
  | some p, some l => if p < l then 0.2 else 0
  | _, _ => 0

/-- Second factor:
`response.tokenCount < this.config.maxTokens * 0.8 ? 0.2 : 0.1`. -/
def tokenFactor (cfg : ModelConfig) (r : ModelResponse) : ℚ :=
  match r.tokenCount with
  | some t => if t < cfg.maxTokens * 0.8 then 0.2 else 0.1
  | none => 0.1

/-- The `BaseModel.calculateConfidence` (BaseModel.ts:76–85): the sum of the
four factors, clamped above by 1.0. -/
def calculateConfidence (cfg : ModelConfig) (recentSuccessRate : ℚ)
    (r : ModelResponse) : ℚ :=
  min (latencyFactor cfg r + tokenFactor cfg r + recentSuccessRate * 0.3 +
        validateResponseQuality r.text * 0.3) 1.0

/-- Modelled from the spec: `enrichMetadata` (BaseModel.ts:72) is defined
nowhere under src/; §4.4 step 4 only requires metadata to be attached, so
the response's metadata is carried over. -/
def enrichMetadata (r : ModelResponse) : MetaData :=
  r.metadata

/-- The `BaseModel.enhanceResponse` (BaseModel.ts:66–74): stamp model id and
timestamp, recompute confidence, enrich metadata. -/
def enhanceResponse (cfg : ModelConfig) (modelId : String) (now : Nat)
    (recentSuccessRate : ℚ) (r : ModelResponse) : ModelResponse :=
  { r with modelId := modelId, timestamp := now,
           confidence := calculateConfidence cfg recentSuccessRate r,
           metadata := enrichMetadata r }

/-- Modelled from the spec: `handleError` (BaseModel.ts:49) is defined
nowhere under src/.  Spec §4.4 step 6 / §7: on unrecoverable failure
produce a degraded Response carrying an error indicator in metadata and a
low/zero confidence instead of raising. -/
def handleError (modelId : String) (now : Nat) : ModelResponse :=
  { text := "", confidence := 0, metadata := { error := true },
    modelId := modelId, timestamp := now, processingTime := none,
    tokenCount := none }

/-- The `BaseModel.execute` (BaseModel.ts:20–51): compute the cache key, return
a cache hit, otherwise run optimization (`PerformanceOptimizer.optimize` is
an external collaborator hook per spec §1/§4.4 and is modelled as the
identity on the input, which the remaining steps do not read), then the
breaker/retry stack, enrichment, cache store and metrics; every failure of
the try-block is converted by `handleError` into a degraded Response.
Metrics recording (`recordMetrics`, `recordCacheHit`) updates only the
rolling summary modelled abstractly by `recentSuccessRate` and is left
unchanged.  The function is total: no exception reaches the caller. -/
def execute (cfg : ModelConfig) (bcfg : BreakerConfig) (modelId : String)
    (backend : Nat → Option ModelResponse) (now : Nat) (input : ModelInput)
    (st : ModelState) : ModelResponse × ModelState :=
  let p := generateCacheKey st
  let cacheKey := p.1
  let st1 := p.2
  match shouldUseCache input, List.lookup cacheKey st1.cache with
  | true, some cached => (cached.response, st1)
  | _, _ =>
    match executeWithResilience bcfg backend now st1 with
    | (Except.ok r, st2) =>
      let enhanced := enhanceResponse cfg modelId now st2.recentSuccessRate r
      (enhanced, updateCache cacheKey enhanced now st2)
    | (Except.error _, st2) => (handleError modelId now, st2)

/-- Cache keys already stored are strictly below the key counter; holds in
the initial state and is preserved by every `execute`. -/
def CacheWF (st : ModelState) : Prop :=
  ∀ p ∈ st.cache, p.1 < st.nextKey

/-- The leftmost record of maximal score — the head of the stable
descending sort (proved below). -/
def leftMax : List ScoredPath → Option ScoredPath
  | [] => none
  | x :: xs =>
    match leftMax xs with
    | none => some x
    | some h => some (if h.score ≤ x.score then x else h)

/-! ## Concrete instances used by the theorems -/

/-- The spec §8 contradiction example pair. -/
def contradictStep1 : String := "The system is not scalable"
def contradictStep2 : String := "The system is scalable"

def contradictPath : ReasoningPath :=
  ⟨[contradictStep1, contradictStep2], 0.8, []⟩

/-- The spec §8 completeness/simplicity example path. -/
def examplePath : ReasoningPath :=
  ⟨["We assume X.", "Because X, therefore Y.", "Thus Z follows."], 0.8, []⟩

/-- A raw strategy output from which no step can be parsed. -/
def unparsedRaw : RawResponse := ⟨some "", none, none⟩

/-- Two adjacent binary64 confidence values whose products with the double
`0.1` round to the same double: `3/4` and its successor `3/4 + 2⁻⁵³`
(`0x1.8000000000000p-1` and `0x1.8000000000001p-1`). -/
def tieConfLo : ℚ := 3 / 4

def tieConfHi : ℚ := 6755399441055745 / 9007199254740992

/-- Two candidate paths identical except for their raw confidence; because
`fl (tieConfLo * fl 0.1) = fl (tieConfHi * fl 0.1)`, their program-computed
binary64 weighted scores are bit-for-bit equal while the later path's raw
confidence is strictly higher. -/
def fpTieFirst : ReasoningPath := ⟨["alpha therefore beta"], tieConfLo, ["x"]⟩

def fpTieSecond : ReasoningPath := ⟨["alpha therefore beta"], tieConfHi, ["x"]⟩

/-- A successful raw strategy output. -/
def okRaw : RawResponse := ⟨some "1. alpha therefore beta.", none, some 0.9⟩

/-- Strategy oracles with exactly one failing invocation. -/
def invokeSecondFails : Fin 4 → Option RawResponse :=
  fun i => if i = 1 then none else some okRaw

def invokeFirstFails : Fin 4 → Option RawResponse :=
  fun i => if i = 0 then none else some okRaw

/-- Concrete pipeline instances. -/
def cfg0 : ModelConfig := ⟨none, 4096⟩
def bcfg0 : BreakerConfig := ⟨5, 10000, 30000⟩
def input0 : ModelInput := ⟨"What is the answer to the question?", false⟩

def okResponse : ModelResponse :=
  ⟨"This is a full sentence answer.", 0.9, ⟨false⟩, "", 0, none, none⟩

def backendOK : Nat → Option ModelResponse := fun _ => some okResponse
def backendFail : Nat → Option ModelResponse := fun _ => none

/-- Fresh model state. -/
def st0 : ModelState := ⟨[], 0, ⟨CircuitState.closed, 0, 0, 0⟩, 0.5, 0⟩

/-- A state with `threshold - 1 = 4` windowed consecutive failures. -/
def stAlmostTripped : ModelState :=
  ⟨[], 0, ⟨CircuitState.closed, 4, 100, 0⟩, 0.5, 12⟩

/-- A state whose breaker is open with the cooldown still running. -/
def stOpen : ModelState :=
  ⟨[], 0, ⟨CircuitState.opened, 5, 100, 100⟩, 0.5, 15⟩

/-- A long problem statement (230 characters) with four constraints, and
its shortening with none. -/
def longProblem : Problem :=
  ⟨"Design a distributed data processing platform that ingests telemetry from many edge devices, stores it durably, serves interactive dashboards, and keeps operating during regional outages without losing any acknowledged write ever.",
   ["scale to multiple regions", "stay within budget", "retain data", "answer fast"]⟩

def shortProblem : Problem :=
  ⟨"Design a data processing platform.", []⟩

/-! ## Helper lemmas -/

theorem head_insertByScoreDesc (x : ScoredPath) (l : List ScoredPath) :
    (insertByScoreDesc x l).head? =
      some (match l with
            | [] => x
            | y :: _ => if y.score ≤ x.score then x else y) := by
  cases l with
  | nil => rfl
  | cons y ys =>
    by_cases h : y.score ≤ x.score <;> simp [insertByScoreDesc, h]

theorem head_sortByScoreDesc (l : List ScoredPath) :
    (sortByScoreDesc l).head? = leftMax l := by
  induction l with
  | nil => rfl
  | cons x xs ih =>
    rw [sortByScoreDesc, head_insertByScoreDesc, leftMax]
    cases hs : sortByScoreDesc xs with
    | nil =>
      rw [hs] at ih
      simp only [List.head?] at ih
      rw [← ih]
    | cons y ys =>
      rw [hs] at ih
      simp only [List.head?] at ih
      rw [← ih]

theorem leftMax_spec (l : List ScoredPath) (h : l ≠ []) :
    ∃ l1 x l2, l = l1 ++ x :: l2 ∧ leftMax l = some x ∧
      (∀ y ∈ l, y.score ≤ x.score) ∧ ∀ y ∈ l1, y.score < x.score := by
  induction l with
  | nil => exact absurd rfl h
  | cons a xs ih =>
    by_cases hxs : xs = []
    · subst hxs
      refine ⟨[], a, [], rfl, rfl, ?_, by simp⟩
      intro y hy
      rw [List.mem_singleton] at hy
      exact hy ▸ le_refl _
    · obtain ⟨l1, x, l2, hdec, hlm, hall, hpre⟩ := ih hxs
      by_cases hle : x.score ≤ a.score
      · refine ⟨[], a, xs, rfl, ?_, ?_, by simp⟩
        · rw [leftMax, hlm]
          simp [hle]
        · intro y hy
          rcases List.mem_cons.mp hy with hy | hy
          · exact hy ▸ le_refl _
          · exact le_trans (hall y hy) hle
      · refine ⟨a :: l1, x, l2, by rw [hdec, List.cons_append], ?_, ?_, ?_⟩
        · rw [leftMax, hlm]
          simp [hle]
        · intro y hy
          rcases List.mem_cons.mp hy with hy | hy
          · exact hy ▸ le_of_lt (lt_of_not_le hle)
          · exact hall y hy
        · intro y hy
          rcases List.mem_cons.mp hy with hy | hy
          · exact hy ▸ lt_of_not_le hle
          · exact hpre y hy

theorem map_eq_append_cons {α β : Type} (f : α → β) (l : List α) (s : List β)
    (x : β) (t : List β) (h : l.map f = s ++ x :: t) :
    ∃ s2 x2 t2, l = s2 ++ x2 :: t2 ∧ s2.map f = s ∧ f x2 = x ∧ t2.map f = t := by
  induction s generalizing l with
  | nil =>
    cases l with
    | nil => simp at h
    | cons a l2 =>
      simp only [List.map_cons, List.nil_append, List.cons.injEq] at h
      exact ⟨[], a, l2, by simp, rfl, h.1, h.2⟩
  | cons b s2 ih =>
    cases l with
    | nil => simp at h
    | cons a l2 =>
      simp only [List.map_cons, List.cons_append, List.cons.injEq] at h
      obtain ⟨s3, x3, t3, h1, h2, h3, h4⟩ := ih l2 h.2
      exact ⟨a :: s3, x3, t3, by simp [h1], by simp [h.1, h2], h3, h4⟩

/-- The `evaluateReasoningPaths` on a non-empty list returns the leftmost path
of maximal weighted score (stable-sort head). -/
theorem evaluateReasoningPaths_spec (paths : List ReasoningPath)
    (h : paths ≠ []) :
    ∃ pre p post, paths = pre ++ p :: post ∧
      evaluateReasoningPaths paths = some p ∧
      (∀ q ∈ paths, pathScore q ≤ pathScore p) ∧
      ∀ q ∈ pre, pathScore q < pathScore p := by
  have hmap : paths.map (fun p => ScoredPath.mk p (pathScore p)) ≠ [] := by
    cases paths with
    | nil => exact absurd rfl h
    | cons a l => simp
  obtain ⟨l1, x, l2, hdec, hlm, hall, hpre⟩ := leftMax_spec _ hmap
  obtain ⟨s2, p, t2, hps, hs1, hx, ht⟩ := map_eq_append_cons _ _ _ _ _ hdec
  refine ⟨s2, p, t2, hps, ?_, ?_, ?_⟩
  · show Option.map ScoredPath.path
        (sortByScoreDesc (paths.map fun p => ScoredPath.mk p (pathScore p))).head? = some p
    rw [head_sortByScoreDesc, hlm, ← hx]
    rfl
  · intro q hq
    have hmem : ScoredPath.mk q (pathScore q) ∈
        paths.map (fun p => ScoredPath.mk p (pathScore p)) :=
      List.mem_map_of_mem _ hq
    have := hall _ hmem
    rw [← hx] at this
    exact this
  · intro q hq
    have hmem : ScoredPath.mk q (pathScore q) ∈ l1 := by
      rw [← hs1]
      exact List.mem_map_of_mem _ hq
    have := hpre _ hmem
    rw [← hx] at this
    exact this

/-- The binary64 evaluator on a non-empty list returns the leftmost path of
maximal program-computed score (stable-sort head), mirroring
`evaluateReasoningPaths_spec` for the double semantics. -/
theorem evaluateReasoningPathsFP_spec (paths : List ReasoningPath)
    (h : paths ≠ []) :
    ∃ pre p post, paths = pre ++ p :: post ∧
      evaluateReasoningPathsFP paths = some p ∧
      (∀ q ∈ paths, pathScoreFP q ≤ pathScoreFP p) ∧
      ∀ q ∈ pre, pathScoreFP q < pathScoreFP p := by
  have hmap : paths.map (fun p => ScoredPath.mk p (pathScoreFP p)) ≠ [] := by
    cases paths with
    | nil => exact absurd rfl h
    | cons a l => simp
  obtain ⟨l1, x, l2, hdec, hlm, hall, hpre⟩ := leftMax_spec _ hmap
  obtain ⟨s2, p, t2, hps, hs1, hx, ht⟩ := map_eq_append_cons _ _ _ _ _ hdec
  refine ⟨s2, p, t2, hps, ?_, ?_, ?_⟩
  · show Option.map ScoredPath.path
        (sortByScoreDesc (paths.map fun p => ScoredPath.mk p (pathScoreFP p))).head? =
      some p
    rw [head_sortByScoreDesc, hlm, ← hx]
    rfl
  · intro q hq
    have hmem : ScoredPath.mk q (pathScoreFP q) ∈
        paths.map (fun p => ScoredPath.mk p (pathScoreFP p)) :=
      List.mem_map_of_mem _ hq
    have := hall _ hmem
    rw [← hx] at this
    exact this
  · intro q hq
    have hmem : ScoredPath.mk q (pathScoreFP q) ∈ l1 := by
      rw [← hs1]
      exact List.mem_map_of_mem _ hq
    have := hpre _ hmem
    rw [← hx] at this
    exact this

theorem lookup_eq_none_of_lt (k : Nat) (l : List (Nat × CachedResponse))
    (h : ∀ p ∈ l, p.1 < k) : List.lookup k l = none := by
  induction l with
  | nil => rfl
  | cons a t ih =>
    obtain ⟨a1, a2⟩ := a
    have ha : a1 < k := h (a1, a2) (List.mem_cons_self _ _)
    have hne : (k == a1) = false := by
      rw [Bool.eq_false_iff]
      intro hc
      rw [beq_iff_eq] at hc
      omega
    rw [List.lookup, hne]
    exact ih fun p hp => h p (List.mem_cons_of_mem _ hp)

theorem retryExecute_all_fail (backend : Nat → Option ModelResponse)
    (h : ∀ n, backend n = none) (made n : Nat) :
    retryExecute backend made n = (none, made + n) := by
  induction n generalizing made with
  | zero => rfl
  | succ m ih =>
    rw [retryExecute, h made, ih (made + 1), Nat.add_assoc, Nat.add_comm 1 m]

theorem validateResponseQuality_bounds (t : String) :
    0 ≤ validateResponseQuality t ∧ validateResponseQuality t ≤ 1 := by
  have hgen : ∀ cs : List Bool, cs.length = 4 →
      0 ≤ ((cs.filter id).length : ℚ) / (cs.length : ℚ) ∧
        ((cs.filter id).length : ℚ) / (cs.length : ℚ) ≤ 1 := by
    intro cs hlen
    have hfil : (cs.filter id).length ≤ 4 := hlen ▸ List.length_filter_le id cs
    rw [hlen]
    constructor
    · positivity
    · rw [div_le_one (by norm_num)]
      exact_mod_cast hfil
  exact hgen _ rfl

theorem latencyFactor_nonneg (cfg : ModelConfig) (r : ModelResponse) :
    0 ≤ latencyFactor cfg r := by
  unfold latencyFactor
  rcases r.processingTime with _ | p <;> rcases cfg.optimalLatency with _ | l
  · norm_num
  · norm_num
  · norm_num
  · show 0 ≤ if p < l then (0.2 : ℚ) else 0
    split_ifs <;> norm_num

theorem tokenFactor_nonneg (cfg : ModelConfig) (r : ModelResponse) :
    0 ≤ tokenFactor cfg r := by
  unfold tokenFactor
  rcases r.tokenCount with _ | t
  · norm_num
  · show 0 ≤ if t < cfg.maxTokens * 0.8 then (0.2 : ℚ) else 0.1
    split_ifs <;> norm_num

theorem calculateConfidence_bounds (cfg : ModelConfig) (rate : ℚ)
    (r : ModelResponse) (h0 : 0 ≤ rate) :
    0 ≤ calculateConfidence cfg rate r ∧ calculateConfidence cfg rate r ≤ 1 := by
  obtain ⟨hq0, hq1⟩ := validateResponseQuality_bounds r.text
  have hl := latencyFactor_nonneg cfg r
  have ht := tokenFactor_nonneg cfg r
  unfold calculateConfidence
  constructor
  · have hsum : 0 ≤ latencyFactor cfg r + tokenFactor cfg r + rate * 0.3 +
        validateResponseQuality r.text * 0.3 := by nlinarith
    have hone : (0 : ℚ) ≤ 1.0 := by norm_num
    exact le_min hsum hone
  · exact le_trans (min_le_right _ _) (by norm_num)

/-- With a well-formed cache the fresh key can never hit, so `execute`
always reaches the resilience stage. -/
theorem execute_eq (cfg : ModelConfig) (bcfg : BreakerConfig) (modelId : String)
    (backend : Nat → Option ModelResponse) (now : Nat) (input : ModelInput)
    (st : ModelState) (hwf : CacheWF st) :
    execute cfg bcfg modelId backend now input st =
      match executeWithResilience bcfg backend now (generateCacheKey st).2 with
      | (Except.ok r, st2) =>
        ((enhanceResponse cfg modelId now st2.recentSuccessRate r),
          updateCache (generateCacheKey st).1
            (enhanceResponse cfg modelId now st2.recentSuccessRate r) now st2)
      | (Except.error _, st2) => (handleError modelId now, st2) := by
  have hmiss : List.lookup st.nextKey st.cache = none :=
    lookup_eq_none_of_lt _ _ hwf
  unfold execute
  cases hsu : shouldUseCache input <;>
    simp only [generateCacheKey, hmiss, hsu]

theorem executeWithResilience_rate (bcfg : BreakerConfig)
    (backend : Nat → Option ModelResponse) (now : Nat) (st : ModelState) :
    (executeWithResilience bcfg backend now st).2.recentSuccessRate =
      st.recentSuccessRate := by
  simp only [executeWithResilience]
  repeat' split
  all_goals rfl

theorem executeWithResilience_failfast (bcfg : BreakerConfig)
    (backend : Nat → Option ModelResponse) (now : Nat) (st : ModelState)
    (hc : st.breaker.circuit = CircuitState.opened)
    (hcool : now < st.breaker.openedAt + bcfg.cooldownMs) :
    executeWithResilience bcfg backend now st =
      (Except.error ResilienceError.breakerOpen, st) := by
  have hnc : ¬(st.breaker.circuit = CircuitState.opened ∧
      st.breaker.openedAt + bcfg.cooldownMs ≤ now) := by
    rintro ⟨-, hle⟩
    omega
  simp only [executeWithResilience]
  rw [if_neg hnc, hc, if_pos rfl]

theorem executeWithResilience_trip (bcfg : BreakerConfig)
    (backend : Nat → Option ModelResponse) (now : Nat) (st : ModelState)
    (hc : st.breaker.circuit = CircuitState.closed)
    (hf : st.breaker.failures + 1 = bcfg.threshold)
    (hw : now ≤ st.breaker.lastFailureAt + bcfg.windowMs)
    (hb : ∀ n, backend n = none) :
    executeWithResilience bcfg backend now st =
      (Except.error ResilienceError.retriesExhausted,
        { st with attemptsMade := st.attemptsMade + retryMaxAttempts,
                  breaker := { circuit := CircuitState.opened,
                               failures := st.breaker.failures + 1,
                               lastFailureAt := now, openedAt := now } }) := by
  have hnc : ¬(st.breaker.circuit = CircuitState.opened ∧
      st.breaker.openedAt + bcfg.cooldownMs ≤ now) := by
    rw [hc]
    rintro ⟨h, -⟩
    exact absurd h (by simp)
  have hno : ¬(CircuitState.closed = CircuitState.opened) := by simp
  have hretry := retryExecute_all_fail backend hb st.attemptsMade retryMaxAttempts
  have htrip : CircuitState.closed = CircuitState.halfOpen ∨
      bcfg.threshold ≤ st.breaker.failures + 1 := Or.inr (le_of_eq hf.symm)
  simp only [executeWithResilience]
  rw [if_neg hnc, hc, if_neg hno]
  simp only [hretry]
  rw [if_pos hw, if_pos htrip]

/-! ## Claim theorems -/

/-- Claim C1.  For every request, the pipeline's `execute` returns a Response
value — the function is total, faithfully to the try/catch at
BaseModel.ts:30–50 which converts every internal failure into `handleError`'s
degraded Response (the code contains no cancellation mechanism, so the
"except on cancellation" allowance is vacuous) — whose confidence lies in
[0,1] (given the rolling success rate supplied by the metrics collaborator
is itself nonnegative), whose model identifier is the pipeline's model id,
and which, whenever the resilience stage fails (breaker open or retries
exhausted), is the degraded Response carrying the error indicator in its
metadata. -/
theorem execute_response_contract
    (cfg : ModelConfig) (bcfg : BreakerConfig) (modelId : String)
    (backend : Nat → Option ModelResponse) (now : Nat) (input : ModelInput)
    (st : ModelState) (hr0 : 0 ≤ st.recentSuccessRate) (hwf : CacheWF st) :
    (0 ≤ (execute cfg bcfg modelId backend now input st).1.confidence ∧
      (execute cfg bcfg modelId backend now input st).1.confidence ≤ 1) ∧
    (execute cfg bcfg modelId backend now input st).1.modelId = modelId ∧
    (∀ e st2,
      executeWithResilience bcfg backend now (generateCacheKey st).2 =
        (Except.error e, st2) →
      (execute cfg bcfg modelId backend now input st).1 = handleError modelId now ∧
      (execute cfg bcfg modelId backend now input st).1.metadata.error = true) := by
  rw [execute_eq cfg bcfg modelId backend now input st hwf]
  have hrate := executeWithResilience_rate bcfg backend now (generateCacheKey st).2
  rcases hex : executeWithResilience bcfg backend now (generateCacheKey st).2
    with ⟨res, st2⟩
  rw [hex] at hrate
  cases res with
  | ok r =>
    refine ⟨?_, rfl, ?_⟩
    · have h0 : (0 : ℚ) ≤ st2.recentSuccessRate := by
        rw [hrate]
        exact hr0
      exact calculateConfidence_bounds cfg st2.recentSuccessRate r h0
    · intro e st3 heq
      simp at heq
  | error e =>
    refine ⟨⟨le_refl _, by norm_num [handleError]⟩, rfl, fun e2 st3 heq => ⟨rfl, rfl⟩⟩

/-- Witness for C1 at a concrete configuration, state and backend. -/
theorem execute_response_contract_witness :
    ((0 : ℚ) ≤ st0.recentSuccessRate ∧ CacheWF st0) ∧
    (0 ≤ (execute cfg0 bcfg0 "model-w" backendOK 5 input0 st0).1.confidence ∧
      (execute cfg0 bcfg0 "model-w" backendOK 5 input0 st0).1.confidence ≤ 1) ∧
    (execute cfg0 bcfg0 "model-w" backendOK 5 input0 st0).1.modelId = "model-w" := by
  have hr : (0 : ℚ) ≤ st0.recentSuccessRate := by norm_num [st0]
  have hwf : CacheWF st0 := by
    intro p hp
    simp [st0] at hp
  have h := execute_response_contract cfg0 bcfg0 "model-w" backendOK 5 input0 st0 hr hwf
  exact ⟨⟨hr, hwf⟩, h.1, h.2.1⟩

/-- Claim C7.  (i) When the breaker has `threshold - 1` windowed consecutive
failures recorded and one more execute call's invocations all fail within
the window, the breaker trips to Open (with the cooldown started at `now`)
and the call returns the degraded Response.  (ii) While the breaker is Open
and the cooldown has not elapsed, the very next `execute` call returns the
degraded Response with the error indicator set and makes **no** invocation
attempt (the attempt counter is unchanged). -/
theorem breaker_trip_then_failfast
    (cfg : ModelConfig) (bcfg : BreakerConfig) (modelId : String)
    (backend : Nat → Option ModelResponse) (now : Nat) (input : ModelInput)
    (st : ModelState) (hwf : CacheWF st) :
    (st.breaker.circuit = CircuitState.closed →
      st.breaker.failures + 1 = bcfg.threshold →
      now ≤ st.breaker.lastFailureAt + bcfg.windowMs →
      (∀ n, backend n = none) →
      (execute cfg bcfg modelId backend now input st).2.breaker.circuit =
          CircuitState.opened ∧
        (execute cfg bcfg modelId backend now input st).2.breaker.openedAt = now ∧
        (execute cfg bcfg modelId backend now input st).1 = handleError modelId now) ∧
    (st.breaker.circuit = CircuitState.opened →
      now < st.breaker.openedAt + bcfg.cooldownMs →
      (execute cfg bcfg modelId backend now input st).1 = handleError modelId now ∧
        (execute cfg bcfg modelId backend now input st).1.metadata.error = true ∧
        (execute cfg bcfg modelId backend now input st).2.attemptsMade =
          st.attemptsMade) := by
  constructor
  · intro hc hf hw hb
    rw [execute_eq cfg bcfg modelId backend now input st hwf,
        executeWithResilience_trip bcfg backend now (generateCacheKey st).2 hc hf hw hb]
    exact ⟨rfl, rfl, rfl⟩
  · intro hc hcool
    rw [execute_eq cfg bcfg modelId backend now input st hwf,
        executeWithResilience_failfast bcfg backend now (generateCacheKey st).2 hc hcool]
    exact ⟨rfl, rfl, rfl⟩

/-- Witness for C7: a threshold-5 breaker with 4 recorded failures trips on
the next all-failing call, and an open breaker inside its cooldown blocks
the next call without any invocation attempt. -/
theorem breaker_trip_then_failfast_witness :
    (CacheWF stAlmostTripped ∧
      stAlmostTripped.breaker.circuit = CircuitState.closed ∧
      stAlmostTripped.breaker.failures + 1 = bcfg0.threshold ∧
      101 ≤ stAlmostTripped.breaker.lastFailureAt + bcfg0.windowMs ∧
      (execute cfg0 bcfg0 "model-t" backendFail 101 input0
          stAlmostTripped).2.breaker.circuit = CircuitState.opened ∧
      (execute cfg0 bcfg0 "model-t" backendFail 101 input0 stAlmostTripped).1 =
        handleError "model-t" 101) ∧
    (CacheWF stOpen ∧
      stOpen.breaker.circuit = CircuitState.opened ∧
      200 < stOpen.breaker.openedAt + bcfg0.cooldownMs ∧
      (execute cfg0 bcfg0 "model-t" backendFail 200 input0 stOpen).1 =
        handleError "model-t" 200 ∧
      (execute cfg0 bcfg0 "model-t" backendFail 200 input0 stOpen).2.attemptsMade =
        stOpen.attemptsMade) := by
  have hwf1 : CacheWF stAlmostTripped := by
    intro p hp
    simp [stAlmostTripped] at hp
  have hwf2 : CacheWF stOpen := by
    intro p hp
    simp [stOpen] at hp
  have h1 := (breaker_trip_then_failfast cfg0 bcfg0 "model-t" backendFail 101 input0
      stAlmostTripped hwf1).1 rfl rfl (by norm_num [stAlmostTripped, bcfg0])
      (fun n => rfl)
  have h2 := (breaker_trip_then_failfast cfg0 bcfg0 "model-t" backendFail 200 input0
      stOpen hwf2).2 rfl (by norm_num [stOpen, bcfg0])
  exact ⟨⟨hwf1, rfl, rfl, by norm_num [stAlmostTripped, bcfg0], h1.1, h1.2.2⟩,
         ⟨hwf2, rfl, by norm_num [stOpen, bcfg0], h2.1, h2.2.2⟩⟩

/-- Claim C2, bug evidence.  Two identical cache-enabled requests against an
always-succeeding backend: the first call makes one invocation attempt and
stores a cache entry, yet the second call makes a second invocation attempt
(attempt counter 2, not 1) and stores a second entry instead of returning
the first — the un-awaited digest Promise used as the `Map` key can never
hit. -/
theorem second_identical_request_reinvokes :
    shouldUseCache input0 = true ∧
    (execute cfg0 bcfg0 "model-c" backendOK 5 input0 st0).2.attemptsMade = 1 ∧
    (execute cfg0 bcfg0 "model-c" backendOK 5 input0 st0).2.cache.length = 1 ∧
    (execute cfg0 bcfg0 "model-c" backendOK 6 input0
        (execute cfg0 bcfg0 "model-c" backendOK 5 input0 st0).2).2.attemptsMade = 2 ∧
    (execute cfg0 bcfg0 "model-c" backendOK 6 input0
        (execute cfg0 bcfg0 "model-c" backendOK 5 input0 st0).2).2.cache.length = 2 := by
  refine ⟨?_, ?_, ?_, ?_, ?_⟩ <;> with_unfolding_all rfl

/-- Claim C3, counterexample.  Four strategy outputs that fail to parse to a
non-empty step list: `evaluateReasoningPaths` raises nothing (no
`NoViableReasoningPathError` exists anywhere in the code) and returns a
`ReasoningPath` whose steps list is empty. -/
theorem all_strategies_unparsed_yields_empty_path :
    (parseReasoningPath unparsedRaw).steps = [] ∧
    evaluateReasoningPaths (List.replicate 4 (parseReasoningPath unparsedRaw)) =
      some (parseReasoningPath unparsedRaw) := by
  constructor <;> with_unfolding_all rfl

/-- Claim C3, amended.  When all four strategy outputs fail to parse to a
non-empty step list, `evaluateReasoningPaths` does not raise: it returns one
of the four parsed paths, and that path's steps list is empty. -/
theorem evaluate_unparsed_strategies (rs : List RawResponse)
    (hlen : rs.length = 4)
    (hall : ∀ r ∈ rs, (parseReasoningPath r).steps = []) :
    ∃ p, evaluateReasoningPaths (rs.map parseReasoningPath) = some p ∧
      p.steps = [] := by
  have hne : rs.map parseReasoningPath ≠ [] := by
    cases rs with
    | nil => simp at hlen
    | cons a l => simp
  obtain ⟨pre, p, post, hdec, heval, -, -⟩ := evaluateReasoningPaths_spec _ hne
  have hp : p ∈ rs.map parseReasoningPath := by
    rw [hdec]
    simp
  obtain ⟨r, hr, hpr⟩ := List.mem_map.mp hp
  exact ⟨p, heval, hpr ▸ hall r hr⟩

/-- Witness for the amended C3 at four concrete unparseable outputs. -/
theorem evaluate_unparsed_strategies_witness :
    (List.replicate 4 unparsedRaw).length = 4 ∧
    ∃ p, evaluateReasoningPaths
        ((List.replicate 4 unparsedRaw).map parseReasoningPath) = some p ∧
      p.steps = [] :=
  ⟨by simp,
   evaluate_unparsed_strategies (List.replicate 4 unparsedRaw) (by simp)
     (fun r hr => by
       rw [List.eq_of_mem_replicate hr]
       with_unfolding_all rfl)⟩

set_option maxRecDepth 100000 in
set_option maxHeartbeats 4000000 in
/-- Claim C4, counterexample.  Two candidate paths whose program-computed
binary64 weighted scores are bit-for-bit equal (their adjacent-double raw
confidences `3/4` and `3/4 + 2⁻⁵³` multiply-round to the same double, and
every other score component is identical; both scores are the double
`3512807709348987 / 2⁵²`) while the later path's raw confidence is strictly
higher: the engine returns the earlier one — ECMAScript sort is stable and
the comparator looks only at the score — so raw confidence is not a
tie-breaker. -/
theorem tie_break_ignores_raw_confidence :
    pathScoreFP fpTieFirst = pathScoreFP fpTieSecond ∧
    pathScoreFP fpTieFirst = 3512807709348987 / 4503599627370496 ∧
    fpTieFirst.confidence < fpTieSecond.confidence ∧
    evaluateReasoningPathsFP [fpTieFirst, fpTieSecond] = some fpTieFirst := by
  refine ⟨?_, ?_, ?_, ?_⟩
  · with_unfolding_all rfl
  · with_unfolding_all rfl
  · show (3 / 4 : ℚ) < 6755399441055745 / 9007199254740992
    norm_num
  · with_unfolding_all rfl

/-- Claim C4, amended.  The `evaluateReasoningPaths` selection returns the
leftmost path (in the fixed generation order analytical, creative,
systematic, first-principles) among those maximizing the program-computed
binary64 weighted sum `logical·0.4 + completeness·0.3 + simplicity·0.2 +
confidence·0.1`; every earlier path has a strictly smaller computed score,
ties of the computed scores are broken by generation order alone, and raw
confidence enters only through its 0.1 weight. -/
theorem evaluateReasoningPathsFP_leftmost_max (paths : List ReasoningPath)
    (h : paths ≠ []) :
    ∃ pre p post, paths = pre ++ p :: post ∧
      evaluateReasoningPathsFP paths = some p ∧
      (∀ q ∈ paths, pathScoreFP q ≤ pathScoreFP p) ∧
      ∀ q ∈ pre, pathScoreFP q < pathScoreFP p :=
  evaluateReasoningPathsFP_spec paths h

/-- Witness for the amended C4 on a concrete two-path candidate list. -/
theorem evaluateReasoningPathsFP_leftmost_max_witness :
    ([fpTieFirst, fpTieSecond] : List ReasoningPath) ≠ [] ∧
    ∃ pre p post,
      ([fpTieFirst, fpTieSecond] : List ReasoningPath) = pre ++ p :: post ∧
      evaluateReasoningPathsFP [fpTieFirst, fpTieSecond] = some p ∧
      (∀ q ∈ [fpTieFirst, fpTieSecond], pathScoreFP q ≤ pathScoreFP p) ∧
      ∀ q ∈ pre, pathScoreFP q < pathScoreFP p :=
  ⟨by simp,
   evaluateReasoningPathsFP_leftmost_max [fpTieFirst, fpTieSecond] (by simp)⟩

/-- Claim C5, bug evidence.  The spec's mandatory contradiction example is
not flagged: removing `"not"` from `"The system is not scalable"` leaves a
double space (`"The system is  scalable"`), `trim` only strips the ends, so
the containment test fails, `stepsContradict` returns false and the path's
logical-consistency score keeps the full 1.0 base (only the causal-chain
0.2 deduction applies: 0.8, not 0.3 lower). -/
theorem contradiction_pair_not_flagged :
    stepsContradict contradictStep1 contradictStep2 = false ∧
    detectContradictions [contradictStep1, contradictStep2] = false ∧
    jsTrim (replaceFirst contradictStep1 "not") = "The system is  scalable" ∧
    scoreLogicalConsistency contradictPath = 0.8 := by
  refine ⟨?_, ?_, ?_, ?_⟩ <;> with_unfolding_all rfl

/-- Claim C6, counterexample.  The spec example path scores completeness
0.45 < 0.5: `"Because"` and `"Thus"` are capitalized, the `includes` checks
are case-sensitive, so only the lowercase `"therefore"` causal bonus
(0.15, not 0.2 worth of the claimed contributions beyond the step-count
0.3) applies. -/
theorem example_completeness_below_claimed :
    scoreCompleteness examplePath < 0.5 := by
  have h : scoreCompleteness examplePath = 0.45 := by with_unfolding_all rfl
  rw [h]
  norm_num

/-- Claim C6, amended.  The example path scores completeness exactly 0.45
(0.3 step-count + 0.15 for the lowercase `"therefore"`) and simplicity 1.0
(no penalty: 3 steps, short average length). -/
theorem example_path_scores :
    scoreCompleteness examplePath = 0.45 ∧ scoreSimplicity examplePath = 1 := by
  constructor <;> with_unfolding_all rfl

/-- Claim C8, counterexample.  With the second strategy invocation failing
and the other three succeeding, `generateReasoningPaths` produces no
candidate set at all (`Promise.all` rejects), rather than scoring the three
successful paths. -/
theorem single_strategy_failure_aborts :
    generateReasoningPaths invokeSecondFails = none ∧
    (invokeSecondFails 0).isSome = true ∧
    (invokeSecondFails 2).isSome = true ∧
    (invokeSecondFails 3).isSome = true := by
  refine ⟨?_, ?_, ?_, ?_⟩ <;> with_unfolding_all rfl

/-- Claim C8, amended.  If any of the four concurrently launched strategy
invocations fails, the whole `generateReasoningPaths` fan-in fails
(`Promise.all` rejection): the failed strategy is not dropped and no winner
is produced from the remaining strategies; the failure propagates to
`processInternal`. -/
theorem generation_fails_when_any_strategy_fails
    (invoke : Fin 4 → Option RawResponse) (h : ∃ i, invoke i = none) :
    generateReasoningPaths invoke = none := by
  obtain ⟨i, hi⟩ := h
  unfold generateReasoningPaths
  cases h0 : invoke 0 <;> cases h1 : invoke 1 <;> cases h2 : invoke 2 <;>
    cases h3 : invoke 3 <;>
    first
      | rfl
      | (fin_cases i <;> simp_all)

/-- Witness for the amended C8: the first strategy fails. -/
theorem generation_fails_when_any_strategy_fails_witness :
    (∃ i, invokeFirstFails i = none) ∧
    generateReasoningPaths invokeFirstFails = none :=
  ⟨⟨0, rfl⟩,
   generation_fails_when_any_strategy_fails invokeFirstFails ⟨0, rfl⟩⟩

/-- Claim C9.  Any problem whose statement exceeds 200 characters and whose
constraint list has 4 entries scores strictly higher cognitive complexity
than any problem with a sub-200-character statement and no constraints
(0.75 ≤ score versus score ≤ 0.7). -/
theorem cognitive_complexity_strictly_monotone (p q : Problem)
    (hp1 : 200 < p.statement.length) (hp2 : p.constraints.length = 4)
    (hq1 : q.statement.length < 200) (hq2 : q.constraints.length = 0) :
    assessCognitiveComplexity q < assessCognitiveComplexity p := by
  have hq : assessCognitiveComplexity q ≤ 0.7 := by
    have h1 : ¬(200 < q.statement.length) := by omega
    have h2 : ¬(3 < q.constraints.length) := by omega
    unfold assessCognitiveComplexity
    simp only [h1, h2, if_false]
    refine le_trans (min_le_right _ _) ?_
    split_ifs <;> norm_num
  have hp : (0.75 : ℚ) ≤ assessCognitiveComplexity p := by
    have h2 : 3 < p.constraints.length := by omega
    unfold assessCognitiveComplexity
    simp only [hp1, h2, if_true]
    refine le_min (by norm_num) ?_
    split_ifs <;> norm_num
  linarith

set_option maxRecDepth 10000 in
/-- Witness for C9 at a concrete 230-character problem with 4 constraints
versus its 34-character shortening with none. -/
theorem cognitive_complexity_strictly_monotone_witness :
    200 < longProblem.statement.length ∧ longProblem.constraints.length = 4 ∧
    shortProblem.statement.length < 200 ∧ shortProblem.constraints.length = 0 ∧
    assessCognitiveComplexity shortProblem <
      assessCognitiveComplexity longProblem :=
  ⟨by decide, by decide, by decide, by decide,
   cognitive_complexity_strictly_monotone longProblem shortProblem
     (by decide) (by decide) (by decide) (by decide)⟩

/-- Claim C10.  On a non-empty candidate list, `evaluateReasoningPaths`
returns one of the input paths as-is: the returned value is an element of
the input list (steps, confidence and assumptions are exactly those of one
candidate), and — the embedding being pure — scoring and selection mutate
no candidate. -/
theorem evaluateReasoningPaths_returns_input_member
    (paths : List ReasoningPath) (h : paths ≠ []) :
    ∃ p, evaluateReasoningPaths paths = some p ∧ p ∈ paths := by
  obtain ⟨pre, p, post, hdec, heval, -, -⟩ := evaluateReasoningPaths_spec paths h
  refine ⟨p, heval, ?_⟩
  rw [hdec]
  simp

/-- Witness for C10 on a concrete singleton candidate list. -/
theorem evaluateReasoningPaths_returns_input_member_witness :
    ([contradictPath] : List ReasoningPath) ≠ [] ∧
    ∃ p, evaluateReasoningPaths [contradictPath] = some p ∧
      p ∈ ([contradictPath] : List ReasoningPath) :=
  ⟨by simp, evaluateReasoningPaths_returns_input_member [contradictPath] (by simp)⟩

end MultiAI
